import Mathlib

/-!
Shallow embedding of the inventory reconciliation core of the repository
(`pkg/inventory/inventory-client.go` and `pkg/apply/task/delete_inv_task.go`).

The cluster store is modelled as the list of anchor objects matching the
inventory label query, together with a trace of the mutating store calls
(create / replace / delete) that have been issued.  Every operation of
`ClusterInventoryClient` is translated to a Lean function threading this
store state and returning `Except String` for the Go error value.  The
set algebra (`object.Union`, `object.SetDiff`, `object.SetEquals`), the
inventory wrapper (`WrapInventoryObj` with `Load`/`Store`/`GetObject`)
and the sort order of `ordering.SortableInfos` live in packages of the
repository that are not part of the sources at hand; they are modelled
from the spec where so marked.
-/

namespace CliUtils

/-- `object.ObjMetadata`: identity of a managed resource, equality by value
(group, kind, namespace, name). -/
structure ObjMetadata where
  group : String
  kind : String
  nspace : String
  name : String
  deriving DecidableEq, Repr

/-- Modelled from the spec: `object.Union` (pkg/object is not among the
sources) — `union(A,B)`, a new set holding the elements of both inputs,
without duplicates from the second list. -/
def Union (a b : List ObjMetadata) : List ObjMetadata :=
  a ++ b.filter (fun x => decide (¬ x ∈ a))

/-- Modelled from the spec: `object.SetDiff` — `difference(A,B)`, the
elements of `A` not in `B`. -/
def SetDiff (a b : List ObjMetadata) : List ObjMetadata :=
  a.filter (fun x => decide (¬ x ∈ b))

/-- Modelled from the spec: `object.SetEquals` — set equality, ignoring
order and duplicates. -/
def SetEquals (a b : List ObjMetadata) : Bool :=
  decide ((∀ x ∈ a, x ∈ b) ∧ (∀ x ∈ b, x ∈ a))

/-- An anchor object (`*resource.Info` holding an inventory object):
namespace, name, and its payload.  `payload = none` models a malformed
payload on which the inventory wrapper's `Load` fails to decode. -/
structure InvObject where
  nspace : String
  name : String
  payload : Option (List ObjMetadata)
  deriving DecidableEq, Repr

/-- Modelled from the spec: the inventory wrapper's `Load` —
`decode(payload) → InventorySet | error`; decode must fail explicitly on a
malformed payload. -/
def Load (o : InvObject) : Except String (List ObjMetadata) :=
  match o.payload with
  | some objs => .ok objs
  | none => .error "inventory object payload is malformed"

/-- Modelled from the spec: the inventory wrapper's `Store` followed by
`GetObject` — `encode(InventorySet) → payload` placed into the wrapped
anchor object. -/
def Store (o : InvObject) (objs : List ObjMetadata) : InvObject :=
  { o with payload := some objs }

/-- One mutating call issued to the API server (`helper.Create`,
`helper.Replace`, `helper.Delete`). -/
inductive StoreEvent where
  | create : InvObject → StoreEvent
  | replace : InvObject → StoreEvent
  | delete : String → String → StoreEvent
  deriving DecidableEq, Repr

/-- The cluster-side state: the anchor objects the inventory label query
returns, plus the trace of mutating store calls issued so far. -/
structure Cluster where
  anchors : List InvObject
  events : List StoreEvent
  deriving DecidableEq, Repr

/-- The local inventory descriptor (`localInv *resource.Info`): identifies
the anchor object's namespace and name.  A `nil` descriptor is `none` at
the use sites below. -/
structure LocalInv where
  nspace : String
  name : String
  deriving DecidableEq, Repr

/-- `ClusterInventoryClient`: the only state relevant to the embedded
operations is the dry-run flag. -/
structure ClusterInventoryClient where
  dryRun : Bool
  deriving DecidableEq, Repr

/-- `applyInventoryObj`: replaces the inventory object on the API server;
in dry-run mode it does nothing, and a `nil` object is an error. -/
def applyInventoryObj (cic : ClusterInventoryClient) (info : Option InvObject)
    (c : Cluster) : Except String Unit × Cluster :=
  if cic.dryRun then (.ok (), c)
  else
    match info with
    | none => (.error "attempting apply a nil inventory object", c)
    | some i =>
      (.ok (), { anchors := c.anchors.map
                   (fun a => if a.nspace = i.nspace ∧ a.name = i.name then i else a),
                 events := c.events ++ [StoreEvent.replace i] })

/-- `createInventoryObj`: creates the inventory object on the API server;
in dry-run mode it does nothing, and a `nil` object is an error. -/
def createInventoryObj (cic : ClusterInventoryClient) (info : Option InvObject)
    (c : Cluster) : Except String Unit × Cluster :=
  if cic.dryRun then (.ok (), c)
  else
    match info with
    | none => (.error "attempting create a nil inventory object", c)
    | some i =>
      (.ok (), { anchors := c.anchors ++ [i],
                 events := c.events ++ [StoreEvent.create i] })

/-- `DeleteInventoryObj`: deletes the passed inventory object from the API
server; in dry-run mode it does nothing (this check precedes the `nil`
check in the source), and a `nil` object is an error. -/
def DeleteInventoryObj (cic : ClusterInventoryClient) (info : Option InvObject)
    (c : Cluster) : Except String Unit × Cluster :=
  if cic.dryRun then (.ok (), c)
  else
    match info with
    | none => (.error "attempting delete a nil inventory object", c)
    | some i =>
      (.ok (), { anchors := c.anchors.filter
                   (fun a => decide (¬ (a.nspace = i.nspace ∧ a.name = i.name))),
                 events := c.events ++ [StoreEvent.delete i.nspace i.name] })

/-- The deletion loop of `mergeClusterInventory`: delete every non-retained
inventory object in turn, stopping at the first error. -/
def deleteAll (cic : ClusterInventoryClient) :
    List InvObject → Cluster → Except String Unit × Cluster
  | [], c => (.ok (), c)
  | i :: rest, c =>
    match DeleteInventoryObj cic (some i) c with
    | (.error e, c1) => (.error e, c1)
    | (.ok _, c1) => deleteAll cic rest c1

/-- Modelled from the spec: the order of `ordering.SortableInfos` (the
ordering package is not among the sources) — candidates are ordered
deterministically by namespace, then name. -/
def charLt (a b : Char) : Bool := a.toNat < b.toNat

/-- Lexicographic strict order on character lists, used for the
deterministic candidate ordering. -/
def strLtL : List Char → List Char → Bool
  | [], [] => false
  | [], _ :: _ => true
  | _ :: _, [] => false
  | a :: as, b :: bs => charLt a b || (a == b && strLtL as bs)

/-- Strict order on strings for the deterministic candidate ordering. -/
def strLt (x y : String) : Bool := strLtL x.data y.data

/-- Modelled from the spec: the comparison of `ordering.SortableInfos` —
namespace first, then name. -/
def infoLe (a b : InvObject) : Bool :=
  strLt a.nspace b.nspace ||
    (a.nspace == b.nspace && (strLt a.name b.name || a.name == b.name))

/-- Insertion into a sorted list of anchor candidates. -/
def insertSorted (x : InvObject) : List InvObject → List InvObject
  | [] => [x]
  | y :: ys => if infoLe x y then x :: y :: ys else y :: insertSorted x ys

/-- `sort.Sort(ordering.SortableInfos(invInfos))`, modelled as insertion
sort with the spec's namespace-then-name order. -/
def sortInfos : List InvObject → List InvObject
  | [] => []
  | x :: xs => insertSorted x (sortInfos xs)

/-- The load-and-union loop of `mergeClusterInventory`: load each remaining
inventory object and union its stored set into the accumulator, stopping at
the first load error. -/
def loadAndUnion : List InvObject → List ObjMetadata → Except String (List ObjMetadata)
  | [], acc => .ok acc
  | i :: rest, acc =>
    match Load i with
    | .error e => .error e
    | .ok objs => loadAndUnion rest (Union acc objs)

/-- `mergeClusterInventory`: sorts the candidates, retains the first, unions
every candidate's stored set into the retained one, stores and applies the
union (write-before-delete), then deletes the non-retained candidates. -/
def mergeClusterInventory (cic : ClusterInventoryClient) (invInfos : List InvObject)
    (c : Cluster) : Except String (Option InvObject) × Cluster :=
  match sortInfos invInfos with
  | [] => (.ok none, c)
  | retained :: rest =>
    match Load retained with
    | .error e => (.error e, c)
    | .ok retainedObjs0 =>
      match loadAndUnion rest retainedObjs0 with
      | .error e => (.error e, c)
      | .ok retainedObjs =>
        let retainInfo := Store retained retainedObjs
        match applyInventoryObj cic (some retainInfo) c with
        | (.error e, c1) => (.error e, c1)
        | (.ok _, c1) =>
          match deleteAll cic rest c1 with
          | (.error e, c2) => (.error e, c2)
          | (.ok _, c2) => (.ok (some retainInfo), c2)

/-- `getClusterInventoryInfo`: a `nil` local descriptor is an immediate
error; otherwise the label query returns the current anchors, and more than
one candidate triggers `mergeClusterInventory`. -/
def getClusterInventoryInfo (cic : ClusterInventoryClient) (localInv : Option LocalInv)
    (c : Cluster) : Except String (Option InvObject) × Cluster :=
  match localInv with
  | none => (.error "retrieving cluster inventory object with nil local inventory", c)
  | some _ =>
    match c.anchors with
    | [] => (.ok none, c)
    | [a] => (.ok (some a), c)
    | infos => mergeClusterInventory cic infos c

/-- `GetClusterObjs`: returns the objects stored in the cluster inventory
object, or the empty set when no anchor exists yet. -/
def GetClusterObjs (cic : ClusterInventoryClient) (localInv : Option LocalInv)
    (c : Cluster) : Except String (List ObjMetadata) × Cluster :=
  match getClusterInventoryInfo cic localInv c with
  | (.error e, c1) => (.error e, c1)
  | (.ok none, c1) => (.ok [], c1)
  | (.ok (some clusterInv), c1) =>
    match Load clusterInv with
    | .error e => (.error e, c1)
    | .ok objs => (.ok objs, c1)

/-- `Merge`: creates the initial inventory object when none exists, returns
with no prune set when the applied objects equal the stored set, and
otherwise computes the prune set as the set difference and persists the
union (unless dry-run). -/
def Merge (cic : ClusterInventoryClient) (localInv : Option LocalInv)
    (objs : List ObjMetadata) (c : Cluster) :
    Except String (List ObjMetadata) × Cluster :=
  match getClusterInventoryInfo cic localInv c with
  | (.error e, c1) => (.error e, c1)
  | (.ok none, c1) =>
    match localInv with
    | none => (.error "attempting create a nil inventory object", c1)
    | some d =>
      let invInfo : InvObject := { nspace := d.nspace, name := d.name, payload := some objs }
      match createInventoryObj cic (some invInfo) c1 with
      | (.error e, c2) => (.error e, c2)
      | (.ok _, c2) => (.ok [], c2)
  | (.ok (some clusterInv), c1) =>
    match GetClusterObjs cic localInv c1 with
    | (.error e, c2) => (.error e, c2)
    | (.ok clusterObjs, c2) =>
      if SetEquals objs clusterObjs then (.ok [], c2)
      else
        let pruneIds := SetDiff clusterObjs objs
        let unionObjs := Union clusterObjs objs
        let wrappedInv := Store clusterInv unionObjs
        if cic.dryRun then (.ok pruneIds, c2)
        else
          match applyInventoryObj cic (some wrappedInv) c2 with
          | (.error e, c3) => (.error e, c3)
          | (.ok _, c3) => (.ok pruneIds, c3)

/-- `Replace`: overwrites the stored set with the passed objects, with a
no-op short-circuit when the stored set already equals them. -/
def Replace (cic : ClusterInventoryClient) (localInv : Option LocalInv)
    (objs : List ObjMetadata) (c : Cluster) : Except String Unit × Cluster :=
  match GetClusterObjs cic localInv c with
  | (.error e, c1) => (.error e, c1)
  | (.ok clusterObjs, c1) =>
    if SetEquals objs clusterObjs then (.ok (), c1)
    else
      match getClusterInventoryInfo cic localInv c1 with
      | (.error e, c2) => (.error e, c2)
      | (.ok clusterInvOpt, c2) =>
        let wrappedInv := clusterInvOpt.map (fun i => Store i objs)
        if cic.dryRun then (.ok (), c2)
        else applyInventoryObj cic wrappedInv c2

/-- The value a task sends on the task channel (`taskrunner.TaskResult`):
the error of the operation, `none` on success. -/
structure TaskResult where
  err : Option String
  deriving DecidableEq, Repr

/-- Converts the outcome of an inventory-client call into the `Err` field
of a `TaskResult`. -/
def errOf : Except String Unit → Option String
  | .error e => some e
  | .ok _ => none

/-- `DeleteInvTask`: the task that deletes the inventory object from the
cluster. -/
structure DeleteInvTask where
  taskName : String
  invClient : ClusterInventoryClient
  invInfo : Option InvObject
  deriving DecidableEq, Repr

/-- `DeleteInvTask.Start`: the body of the spawned thread of execution —
it calls `DeleteInventoryObj` and sends exactly one `TaskResult` carrying
its error on the task channel.  The returned list is the sequence of
results delivered to the task channel by this invocation. -/
def DeleteInvTask.Start (t : DeleteInvTask) (c : Cluster) : List TaskResult × Cluster :=
  match DeleteInventoryObj t.invClient t.invInfo c with
  | (r, c1) => ([{ err := errOf r }], c1)

/-! ### Helper functions used to describe the effect of the operations -/

/-- The identifying key of an anchor object in the store. -/
def key (i : InvObject) : String × String := (i.nspace, i.name)

/-- A store invariant: the anchors a label query returns are distinct
objects, so no two of them share a namespace/name key. -/
def KeysNodup (l : List InvObject) : Prop := (l.map key).Nodup

/-- The replacement `applyInventoryObj` performs on the store. -/
def replFun (i : InvObject) : InvObject → InvObject :=
  fun a => if a.nspace = i.nspace ∧ a.name = i.name then i else a

/-- The anchors that survive deleting every element of `rest`. -/
def keepFun (rest : List InvObject) : InvObject → Bool :=
  fun a => decide (∀ r ∈ rest, ¬ (a.nspace = r.nspace ∧ a.name = r.name))

/-- The trace entry of deleting one inventory object. -/
def delEvent (i : InvObject) : StoreEvent := StoreEvent.delete i.nspace i.name

/-! ### Set algebra -/

theorem mem_Union {x : ObjMetadata} {a b : List ObjMetadata} :
    x ∈ Union a b ↔ x ∈ a ∨ x ∈ b := by
  simp only [Union, List.mem_append, List.mem_filter, decide_eq_true_eq]
  tauto

theorem mem_SetDiff {x : ObjMetadata} {a b : List ObjMetadata} :
    x ∈ SetDiff a b ↔ x ∈ a ∧ x ∉ b := by
  simp [SetDiff, List.mem_filter]

theorem SetEquals_true_iff {a b : List ObjMetadata} :
    SetEquals a b = true ↔ ∀ x, (x ∈ a ↔ x ∈ b) := by
  simp only [SetEquals, decide_eq_true_eq]
  constructor
  · rintro ⟨h1, h2⟩ x
    exact ⟨fun hx => h1 x hx, fun hx => h2 x hx⟩
  · intro h
    exact ⟨fun x hx => (h x).1 hx, fun x hx => (h x).2 hx⟩

theorem Store_payload (o : InvObject) (objs : List ObjMetadata) :
    (Store o objs).payload = some objs := rfl

theorem Store_nspace (o : InvObject) (objs : List ObjMetadata) :
    (Store o objs).nspace = o.nspace := rfl

theorem Store_name (o : InvObject) (objs : List ObjMetadata) :
    (Store o objs).name = o.name := rfl

/-! ### The deterministic candidate ordering is a permutation -/

theorem insertSorted_perm (x : InvObject) (l : List InvObject) :
    (insertSorted x l).Perm (x :: l) := by
  induction l with
  | nil => exact List.Perm.refl _
  | cons y ys ih =>
    by_cases h : infoLe x y = true
    · simp [insertSorted, h]
    · simp only [insertSorted, h, if_false]
      exact (ih.cons y).trans (List.Perm.swap x y ys)

theorem sortInfos_perm (l : List InvObject) : (sortInfos l).Perm l := by
  induction l with
  | nil => exact List.Perm.refl _
  | cons x xs ih => exact (insertSorted_perm x (sortInfos xs)).trans (ih.cons x)

/-! ### Dry-run behaviour of the store primitives -/

theorem applyInventoryObj_dry (i : Option InvObject) (c : Cluster) :
    applyInventoryObj ⟨true⟩ i c = (.ok (), c) := rfl

theorem createInventoryObj_dry (i : Option InvObject) (c : Cluster) :
    createInventoryObj ⟨true⟩ i c = (.ok (), c) := rfl

theorem DeleteInventoryObj_dry (i : Option InvObject) (c : Cluster) :
    DeleteInventoryObj ⟨true⟩ i c = (.ok (), c) := rfl

theorem deleteAll_dry (l : List InvObject) (c : Cluster) :
    deleteAll ⟨true⟩ l c = (.ok (), c) := by
  induction l generalizing c with
  | nil => rfl
  | cons i rest ih => simpa [deleteAll, DeleteInventoryObj_dry] using ih c

/-! ### Non-dry-run shapes of the store primitives -/

theorem applyInventoryObj_live (i : InvObject) (c : Cluster) :
    applyInventoryObj ⟨false⟩ (some i) c =
      (.ok (), ⟨c.anchors.map (replFun i), c.events ++ [StoreEvent.replace i]⟩) := rfl

theorem DeleteInventoryObj_live (i : InvObject) (c : Cluster) :
    DeleteInventoryObj ⟨false⟩ (some i) c =
      (.ok (), ⟨c.anchors.filter
          (fun a => decide (¬ (a.nspace = i.nspace ∧ a.name = i.name))),
        c.events ++ [delEvent i]⟩) := rfl

theorem keepFun_nil (a : InvObject) : keepFun [] a = true := by
  simp [keepFun]

theorem keepFun_cons (r : InvObject) (rest : List InvObject) (a : InvObject) :
    keepFun (r :: rest) a =
      (decide (¬ (a.nspace = r.nspace ∧ a.name = r.name)) && keepFun rest a) := by
  simp only [keepFun]
  rw [decide_eq_decide.mpr List.forall_mem_cons]
  exact Bool.decide_and _ _

theorem deleteAll_live (rest : List InvObject) (c : Cluster) :
    deleteAll ⟨false⟩ rest c =
      (.ok (), ⟨c.anchors.filter (keepFun rest), c.events ++ rest.map delEvent⟩) := by
  induction rest generalizing c with
  | nil =>
    have h1 : c.anchors.filter (keepFun []) = c.anchors := by
      rw [List.filter_congr (fun x _ => keepFun_nil x), List.filter_true]
    simp [deleteAll, h1]
  | cons r rs ih =>
    simp only [deleteAll, DeleteInventoryObj_live]
    rw [ih]
    refine congrArg _ ?_
    refine congrArg₂ _ ?_ ?_
    · rw [List.filter_filter]
      exact List.filter_congr (fun x _ => by rw [keepFun_cons]; exact Bool.and_comm _ _)
    · simp

/-! ### Execution shapes of `mergeClusterInventory` -/

theorem mergeCI_nil (cic : ClusterInventoryClient) (infos : List InvObject) (c : Cluster)
    (h : sortInfos infos = []) :
    mergeClusterInventory cic infos c = (.ok none, c) := by
  simp [mergeClusterInventory, h]

theorem mergeCI_retained_err (cic : ClusterInventoryClient) (infos : List InvObject)
    (c : Cluster) (retained : InvObject) (rest : List InvObject) (e : String)
    (h : sortInfos infos = retained :: rest) (hL : Load retained = .error e) :
    mergeClusterInventory cic infos c = (.error e, c) := by
  simp [mergeClusterInventory, h, hL]

theorem mergeCI_rest_err (cic : ClusterInventoryClient) (infos : List InvObject)
    (c : Cluster) (retained : InvObject) (rest : List InvObject)
    (s0 : List ObjMetadata) (e : String)
    (h : sortInfos infos = retained :: rest) (hL : Load retained = .ok s0)
    (hU : loadAndUnion rest s0 = .error e) :
    mergeClusterInventory cic infos c = (.error e, c) := by
  simp [mergeClusterInventory, h, hL, hU]

theorem mergeCI_ok_dry (infos : List InvObject) (c : Cluster) (retained : InvObject)
    (rest : List InvObject) (s0 U : List ObjMetadata)
    (h : sortInfos infos = retained :: rest) (hL : Load retained = .ok s0)
    (hU : loadAndUnion rest s0 = .ok U) :
    mergeClusterInventory ⟨true⟩ infos c = (.ok (some (Store retained U)), c) := by
  simp [mergeClusterInventory, h, hL, hU, applyInventoryObj_dry, deleteAll_dry]

theorem mergeCI_ok_live (infos : List InvObject) (c : Cluster) (retained : InvObject)
    (rest : List InvObject) (s0 U : List ObjMetadata)
    (h : sortInfos infos = retained :: rest) (hL : Load retained = .ok s0)
    (hU : loadAndUnion rest s0 = .ok U) :
    mergeClusterInventory ⟨false⟩ infos c =
      (.ok (some (Store retained U)),
        ⟨(c.anchors.map (replFun (Store retained U))).filter (keepFun rest),
         (c.events ++ [StoreEvent.replace (Store retained U)]) ++ rest.map delEvent⟩) := by
  simp [mergeClusterInventory, h, hL, hU, applyInventoryObj_live, deleteAll_live]

/-! ### The load-and-union phase -/

theorem loadAndUnion_ok (rest : List InvObject) (acc : List ObjMetadata)
    (h : ∀ i ∈ rest, ∃ s, i.payload = some s) :
    ∃ U, loadAndUnion rest acc = .ok U ∧
      ∀ x, (x ∈ U ↔ x ∈ acc ∨ ∃ i ∈ rest, ∃ s, i.payload = some s ∧ x ∈ s) := by
  induction rest generalizing acc with
  | nil => exact ⟨acc, rfl, fun x => by simp⟩
  | cons i rs ih =>
    obtain ⟨s, hs⟩ := h i (List.mem_cons_self i rs)
    obtain ⟨U, hU, hmem⟩ := ih (Union acc s) (fun j hj => h j (List.mem_cons_of_mem i hj))
    refine ⟨U, ?_, ?_⟩
    · simp [loadAndUnion, Load, hs, hU]
    · intro x
      rw [hmem x, mem_Union]
      constructor
      · rintro (⟨hx | hx⟩ | ⟨j, hj, t, ht, hx⟩)
        · exact Or.inl hx
        · exact Or.inr ⟨i, List.mem_cons_self i rs, s, hs, hx⟩
        · exact Or.inr ⟨j, List.mem_cons_of_mem i hj, t, ht, hx⟩
      · rintro (hx | ⟨j, hj, t, ht, hx⟩)
        · exact Or.inl (Or.inl hx)
        · rcases List.mem_cons.mp hj with hj | hj
          · subst hj
            rw [hs] at ht
            cases ht
            exact Or.inl (Or.inr hx)
          · exact Or.inr ⟨j, hj, t, ht, hx⟩

theorem loadAndUnion_err (rest : List InvObject) (acc : List ObjMetadata)
    (h : ∃ i ∈ rest, i.payload = none) :
    loadAndUnion rest acc = .error "inventory object payload is malformed" := by
  induction rest generalizing acc with
  | nil => simp at h
  | cons i rs ih =>
    rcases hp : i.payload with _ | s
    · simp [loadAndUnion, Load, hp]
    · obtain ⟨j, hj, hjp⟩ := h
      rcases List.mem_cons.mp hj with hj | hj
      · subst hj
        rw [hp] at hjp
        cases hjp
      · simp only [loadAndUnion, Load, hp]
        exact ih (Union acc s) ⟨j, hj, hjp⟩

/-! ### After healing, exactly the retained anchor remains -/

theorem heal_anchors (infos : List InvObject) (retained : InvObject)
    (rest : List InvObject) (U : List ObjMetadata)
    (h : sortInfos infos = retained :: rest) (hnd : KeysNodup infos) :
    (infos.map (replFun (Store retained U))).filter (keepFun rest) = [Store retained U] := by
  have hperm : (retained :: rest).Perm infos := h ▸ sortInfos_perm infos
  have hnd' : ((retained :: rest).map key).Nodup :=
    (hperm.map key).symm.nodup hnd
  rw [List.map_cons, List.nodup_cons] at hnd'
  obtain ⟨hkr, _⟩ := hnd'
  have hkey : ∀ r ∈ rest, ¬ (retained.nspace = r.nspace ∧ retained.name = r.name) := by
    intro r hr hc
    exact hkr (List.mem_map.mpr ⟨r, hr, by simp [key, hc.1, hc.2]⟩)
  have hfr : replFun (Store retained U) retained = Store retained U := by
    simp [replFun, Store]
  have hrest : rest.map (replFun (Store retained U)) = rest := by
    refine (List.map_congr_left ?_).trans (List.map_id rest)
    intro r hr
    have : ¬ (r.nspace = (Store retained U).nspace ∧ r.name = (Store retained U).name) := by
      rw [Store_nspace, Store_name]
      intro hc
      exact hkey r hr ⟨hc.1.symm, hc.2.symm⟩
    simp [replFun, this]
  have hkeep : keepFun rest (Store retained U) = true := by
    simp only [keepFun, decide_eq_true_eq, Store_nspace, Store_name]
    exact hkey
  have hdrop : rest.filter (keepFun rest) = [] := by
    rw [List.filter_eq_nil_iff]
    intro r hr hkr'
    have := of_decide_eq_true hkr' r hr
    exact this ⟨rfl, rfl⟩
  have hcompute : ((retained :: rest).map (replFun (Store retained U))).filter (keepFun rest)
      = [Store retained U] := by
    rw [List.map_cons, hfr, hrest, List.filter_cons, hkeep, if_pos rfl, hdrop]
  have hfinal : ((infos.map (replFun (Store retained U))).filter (keepFun rest)).Perm
      [Store retained U] := by
    rw [← hcompute]
    exact ((hperm.symm).map (replFun (Store retained U))).filter (keepFun rest)
  exact List.perm_singleton.mp hfinal

/-! ### Case lemmas for `getClusterInventoryInfo` -/

theorem sortInfos_ne_nil {infos : List InvObject} (h : infos ≠ []) : sortInfos infos ≠ [] := by
  intro hs
  have hp := sortInfos_perm infos
  rw [hs] at hp
  exact h (List.perm_nil.mp hp.symm)

theorem getCII_nil_desc (cic : ClusterInventoryClient) (c : Cluster) :
    getClusterInventoryInfo cic none c =
      (.error "retrieving cluster inventory object with nil local inventory", c) := rfl

theorem getCII_zero (cic : ClusterInventoryClient) (d : LocalInv) (c : Cluster)
    (h : c.anchors = []) :
    getClusterInventoryInfo cic (some d) c = (.ok none, c) := by
  obtain ⟨ancs, evs⟩ := c
  simp only at h
  subst h
  rfl

theorem getCII_one (cic : ClusterInventoryClient) (d : LocalInv) (c : Cluster) (a : InvObject)
    (h : c.anchors = [a]) :
    getClusterInventoryInfo cic (some d) c = (.ok (some a), c) := by
  obtain ⟨ancs, evs⟩ := c
  simp only at h
  subst h
  rfl

theorem getCII_many (cic : ClusterInventoryClient) (d : LocalInv) (c : Cluster)
    (a b : InvObject) (t : List InvObject) (h : c.anchors = a :: b :: t) :
    getClusterInventoryInfo cic (some d) c = mergeClusterInventory cic (a :: b :: t) c := by
  obtain ⟨ancs, evs⟩ := c
  simp only at h
  subst h
  rfl

/-! ### Concrete example inputs used by witnesses and counterexamples -/

/-- An example managed resource. -/
def oAEx : ObjMetadata := ⟨"apps", "Deployment", "ns", "objA"⟩

/-- A second example managed resource. -/
def oBEx : ObjMetadata := ⟨"apps", "Deployment", "ns", "objB"⟩

/-- An example local inventory descriptor. -/
def dEx : LocalInv := ⟨"ns", "inv"⟩

/-- An example anchor object storing `[oAEx, oBEx]`. -/
def aW1 : InvObject := ⟨"ns", "inv", some [oAEx, oBEx]⟩

/-- An example anchor candidate storing `[oAEx]`. -/
def aDup1 : InvObject := ⟨"ns", "inv1", some [oAEx]⟩

/-- A second example anchor candidate storing `[oBEx]`. -/
def aDup2 : InvObject := ⟨"ns", "inv2", some [oBEx]⟩

/-! ### Claim theorems -/

/-- C1: for every local inventory descriptor whose anchor exists with stored
set `S`, and every desired set `D` not set-equal to `S`, `Merge` (dry-run
off) returns exactly the set difference `S \ D` as the prune candidates and
persists the union of `S` and `D` into the anchor with replace semantics. -/
theorem c1_merge_existing_diff (d : LocalInv) (a : InvObject) (S D : List ObjMetadata)
    (evs : List StoreEvent) (hp : a.payload = some S) (hne : SetEquals D S = false) :
    Merge ⟨false⟩ (some d) D ⟨[a], evs⟩ =
      (.ok (SetDiff S D),
        ⟨[Store a (Union S D)], evs ++ [StoreEvent.replace (Store a (Union S D))]⟩) ∧
    (∀ x, x ∈ SetDiff S D ↔ x ∈ S ∧ x ∉ D) ∧
    (∀ x, x ∈ Union S D ↔ x ∈ S ∨ x ∈ D) := by
  refine ⟨?_, fun x => mem_SetDiff, fun x => mem_Union⟩
  simp [Merge, GetClusterObjs, getClusterInventoryInfo, Load, hp, hne,
    applyInventoryObj, replFun, Store]

/-- Witness for C1 at a concrete input: stored `S = [oAEx, oBEx]`, desired
`D = [oBEx]`; the prune set is `SetDiff S D = [oAEx]`. -/
theorem c1_witness :
    SetEquals [oBEx] [oAEx, oBEx] = false ∧
    (Merge ⟨false⟩ (some dEx) [oBEx] ⟨[aW1], []⟩).1 = .ok (SetDiff [oAEx, oBEx] [oBEx]) := by
  refine ⟨by decide, ?_⟩
  rw [(c1_merge_existing_diff dEx aW1 [oAEx, oBEx] [oBEx] [] rfl (by decide)).1]

/-- C6: for a descriptor with no existing anchor, `Merge` creates an anchor
whose payload is exactly the desired set `D`, persists it when dry-run is
off (and not when dry-run is on), and returns an empty prune set. -/
theorem c6_merge_creates_anchor (d : LocalInv) (D : List ObjMetadata) (evs : List StoreEvent) :
    Merge ⟨false⟩ (some d) D ⟨[], evs⟩ =
      (.ok [], ⟨[⟨d.nspace, d.name, some D⟩],
        evs ++ [StoreEvent.create ⟨d.nspace, d.name, some D⟩]⟩) ∧
    Merge ⟨true⟩ (some d) D ⟨[], evs⟩ = (.ok [], ⟨[], evs⟩) :=
  ⟨rfl, rfl⟩

/-- C7 counterexample: in dry-run mode, `DeleteInventoryObj` on a nil
descriptor returns success (the dry-run check precedes the nil check in the
source), contradicting the claim that no operation ever returns success on
a nil descriptor. -/
theorem c7_counterexample :
    DeleteInventoryObj ⟨true⟩ none ⟨[], []⟩ = (.ok (), ⟨[], []⟩) := rfl

/-- C7 amended: `GetClusterObjs`, `Merge` and `Replace` fail immediately
with an error and without mutation on a nil local descriptor in every mode;
`DeleteInventoryObj` fails on a nil inventory object when dry-run is off,
but in dry-run mode it returns success without contacting the store. -/
theorem c7_nil_descriptor_errors (cic : ClusterInventoryClient) (D : List ObjMetadata)
    (c : Cluster) :
    GetClusterObjs cic none c =
      (.error "retrieving cluster inventory object with nil local inventory", c) ∧
    Merge cic none D c =
      (.error "retrieving cluster inventory object with nil local inventory", c) ∧
    Replace cic none D c =
      (.error "retrieving cluster inventory object with nil local inventory", c) ∧
    DeleteInventoryObj ⟨false⟩ none c =
      (.error "attempting delete a nil inventory object", c) ∧
    DeleteInventoryObj ⟨true⟩ none c = (.ok (), c) :=
  ⟨rfl, rfl, rfl, rfl, rfl⟩

/-- C9: one invocation of `DeleteInvTask.Start` delivers exactly one
`TaskResult` to the task channel — never zero, never more than one — and
that result carries the error value of `DeleteInventoryObj` (none on
success).  `Start` itself does not fail: its embedding is a total function
whose only outward effect is this single delivery. -/
theorem c9_delete_inv_task_single_result (t : DeleteInvTask) (c : Cluster) :
    (DeleteInvTask.Start t c).1 =
      [⟨errOf (DeleteInventoryObj t.invClient t.invInfo c).1⟩] ∧
    (DeleteInvTask.Start t c).1.length = 1 :=
  ⟨rfl, rfl⟩

/-- A malformed anchor candidate whose payload fails to decode. -/
def bEx : InvObject := ⟨"ns", "bad", none⟩

/-- Set equality is reflexive. -/
theorem SetEquals_refl (a : List ObjMetadata) : SetEquals a a = true :=
  SetEquals_true_iff.mpr (fun _ => Iff.rfl)

/-- When the desired objects are set-equal to the stored set, `Merge`
returns an empty prune set and leaves the store untouched, in every mode. -/
theorem merge_equal_noop (cic : ClusterInventoryClient) (d : LocalInv) (a : InvObject)
    (S D : List ObjMetadata) (evs : List StoreEvent)
    (hp : a.payload = some S) (heq : SetEquals D S = true) :
    Merge cic (some d) D ⟨[a], evs⟩ = (.ok [], ⟨[a], evs⟩) := by
  simp [Merge, GetClusterObjs, getClusterInventoryInfo, Load, hp, heq]

/-- C5 counterexample: stored set `[oAEx]`, desired `[oBEx]`.  The first
`Merge` persists the union `[oAEx, oBEx]`; since `[oBEx]` is still not
set-equal to the stored union, the second call with the same desired set
returns the prune set `[oAEx]` again — not the empty set — and issues a
second replace, so "Merge twice in a row yields an empty prune set and no
write on the second call" fails. -/
theorem c5_counterexample :
    (Merge ⟨false⟩ (some dEx) [oBEx]
      (Merge ⟨false⟩ (some dEx) [oBEx] ⟨[⟨"ns", "inv", some [oAEx]⟩], []⟩).2).1 =
        .ok [oAEx] ∧
    (Merge ⟨false⟩ (some dEx) [oBEx]
      (Merge ⟨false⟩ (some dEx) [oBEx] ⟨[⟨"ns", "inv", some [oAEx]⟩], []⟩).2).2.events ≠
    (Merge ⟨false⟩ (some dEx) [oBEx] ⟨[⟨"ns", "inv", some [oAEx]⟩], []⟩).2.events := by
  exact ⟨rfl, by decide⟩

/-- C5 amended: if the desired set is set-equal to the stored set `S`,
`Merge` returns an empty prune set and performs no write; and calling
`Merge` twice in a row with the same desired set yields an empty prune set
and no write on the second call provided the first call left the stored
set set-equal to the desired set — in particular after first-apply
creation.  (In general the second call returns `S \ D` again, because
`Merge` persists the union rather than the desired set.) -/
theorem c5_merge_idempotent_when_equal :
    (∀ (cic : ClusterInventoryClient) (d : LocalInv) (a : InvObject)
       (S D : List ObjMetadata) (evs : List StoreEvent),
       a.payload = some S → SetEquals D S = true →
       Merge cic (some d) D ⟨[a], evs⟩ = (.ok [], ⟨[a], evs⟩)) ∧
    (∀ (d : LocalInv) (D : List ObjMetadata) (evs : List StoreEvent),
       ∃ c1, Merge ⟨false⟩ (some d) D ⟨[], evs⟩ = (.ok [], c1) ∧
         Merge ⟨false⟩ (some d) D c1 = (.ok [], c1)) := by
  refine ⟨fun cic d a S D evs hp heq => merge_equal_noop cic d a S D evs hp heq, ?_⟩
  intro d D evs
  exact ⟨⟨[⟨d.nspace, d.name, some D⟩], evs ++ [StoreEvent.create ⟨d.nspace, d.name, some D⟩]⟩,
    rfl, merge_equal_noop ⟨false⟩ d ⟨d.nspace, d.name, some D⟩ D D _ rfl (SetEquals_refl D)⟩

/-- Witness for C5 at a concrete input: desired set equal to the stored
set yields an empty prune set and an unchanged store. -/
theorem c5_witness :
    SetEquals [oAEx, oBEx] [oAEx, oBEx] = true ∧
    Merge ⟨false⟩ (some dEx) [oAEx, oBEx] ⟨[aW1], []⟩ = (.ok [], ⟨[aW1], []⟩) :=
  ⟨by decide,
    c5_merge_idempotent_when_equal.1 ⟨false⟩ dEx aW1 [oAEx, oBEx] [oAEx, oBEx] []
      rfl (by decide)⟩

/-- C10: if any candidate of duplicate-anchor resolution has a malformed
payload, the routine returns the decode error and the cluster state —
anchors and mutation trace alike — is exactly the input state: no write
and no deletion has been performed. -/
theorem c10_resolution_decode_error_atomic (cic : ClusterInventoryClient)
    (infos : List InvObject) (c : Cluster) (h : ∃ i ∈ infos, i.payload = none) :
    mergeClusterInventory cic infos c =
      (.error "inventory object payload is malformed", c) := by
  obtain ⟨i, hi, hip⟩ := h
  have hne : infos ≠ [] := by rintro rfl; simp at hi
  rcases hs : sortInfos infos with _ | ⟨r, rest⟩
  · exact absurd hs (sortInfos_ne_nil hne)
  · have hiperm : i ∈ r :: rest := by
      have hp := sortInfos_perm infos
      rw [hs] at hp
      exact hp.mem_iff.mpr hi
    rcases hrp : r.payload with _ | s
    · exact mergeCI_retained_err cic infos c r rest _ hs (by simp [Load, hrp])
    · have hL : Load r = .ok s := by simp [Load, hrp]
      have hirest : i ∈ rest := by
        rcases List.mem_cons.mp hiperm with h1 | h1
        · rw [h1, hrp] at hip; cases hip
        · exact h1
      exact mergeCI_rest_err cic infos c r rest s _ hs hL
        (loadAndUnion_err rest s ⟨i, hirest, hip⟩)

/-- Witness for C10 at a concrete input: one healthy and one malformed
candidate; resolution fails with the decode error and the state is
untouched. -/
theorem c10_witness :
    (bEx ∈ [aDup1, bEx] ∧ bEx.payload = none) ∧
    mergeClusterInventory ⟨false⟩ [aDup1, bEx] ⟨[aDup1, bEx], []⟩ =
      (.error "inventory object payload is malformed", ⟨[aDup1, bEx], []⟩) :=
  ⟨⟨by simp, rfl⟩,
    c10_resolution_decode_error_atomic ⟨false⟩ [aDup1, bEx] ⟨[aDup1, bEx], []⟩
      ⟨bEx, by simp, rfl⟩⟩

/-- C4: in every execution of duplicate-anchor resolution, either no
mutating call is issued at all (error before the write, or dry-run), or
the trace extends the prior trace with the replace of the retained anchor
(which carries the unioned set) strictly first, followed only by delete
calls: the union is persisted before any duplicate is deleted. -/
theorem c4_write_before_delete (cic : ClusterInventoryClient) (infos : List InvObject)
    (c : Cluster) (res : Except String (Option InvObject)) (c' : Cluster)
    (h : mergeClusterInventory cic infos c = (res, c')) :
    c'.events = c.events ∨
    ∃ ri ds, res = .ok (some ri) ∧
      c'.events = c.events ++ StoreEvent.replace ri :: ds ∧
      ∀ e ∈ ds, ∃ ns n, e = StoreEvent.delete ns n := by
  rcases hs : sortInfos infos with _ | ⟨r, rest⟩
  · rw [mergeCI_nil cic infos c hs, Prod.mk.injEq] at h
    rw [← h.2]
    exact Or.inl rfl
  · rcases hL : Load r with e | s0
    · rw [mergeCI_retained_err cic infos c r rest e hs hL, Prod.mk.injEq] at h
      rw [← h.2]
      exact Or.inl rfl
    · rcases hU : loadAndUnion rest s0 with e | U
      · rw [mergeCI_rest_err cic infos c r rest s0 e hs hL hU, Prod.mk.injEq] at h
        rw [← h.2]
        exact Or.inl rfl
      · rcases cic with ⟨dr⟩
        cases dr with
        | true =>
          rw [mergeCI_ok_dry infos c r rest s0 U hs hL hU, Prod.mk.injEq] at h
          rw [← h.2]
          exact Or.inl rfl
        | false =>
          rw [mergeCI_ok_live infos c r rest s0 U hs hL hU, Prod.mk.injEq] at h
          refine Or.inr ⟨Store r U, rest.map delEvent, h.1.symm, ?_, ?_⟩
          · rw [← h.2]
            simp
          · intro e he
            obtain ⟨j, _, hj⟩ := List.mem_map.mp he
            exact ⟨j.nspace, j.name, hj.symm⟩

/-- Witness for C4 at a concrete input: two duplicate anchors, dry-run off;
the trace is the replace of the retained union followed by one delete. -/
theorem c4_witness :
    (mergeClusterInventory ⟨false⟩ [aDup1, aDup2] ⟨[aDup1, aDup2], []⟩).2.events =
      ([] : List StoreEvent) ∨
    ∃ ri ds, (mergeClusterInventory ⟨false⟩ [aDup1, aDup2] ⟨[aDup1, aDup2], []⟩).1 =
        .ok (some ri) ∧
      (mergeClusterInventory ⟨false⟩ [aDup1, aDup2] ⟨[aDup1, aDup2], []⟩).2.events =
        [] ++ StoreEvent.replace ri :: ds ∧
      ∀ e ∈ ds, ∃ ns n, e = StoreEvent.delete ns n :=
  c4_write_before_delete ⟨false⟩ [aDup1, aDup2] ⟨[aDup1, aDup2], []⟩ _ _ rfl

/-- C8 counterexample: with two anchor candidates in the store and dry-run
off, `GetClusterObjs` triggers duplicate-anchor healing and issues mutating
store calls (a replace and a delete), so "never performs a create, replace,
or delete call" fails. -/
theorem c8_counterexample :
    (GetClusterObjs ⟨false⟩ (some dEx) ⟨[aDup1, aDup2], []⟩).2.events ≠ [] := by
  decide

/-- C8 amended: whenever at most one anchor candidate exists,
`GetClusterObjs` returns the stored set (the empty set when no anchor
exists, an explicit decode error on a malformed payload) and leaves the
cluster store entirely unchanged; when more than one candidate exists the
read heals the duplicates as a side effect, which mutates the store. -/
theorem c8_get_cluster_objs_read_only (cic : ClusterInventoryClient) (d : LocalInv)
    (evs : List StoreEvent) :
    (GetClusterObjs cic (some d) ⟨[], evs⟩ = (.ok [], ⟨[], evs⟩)) ∧
    (∀ a S, a.payload = some S →
      GetClusterObjs cic (some d) ⟨[a], evs⟩ = (.ok S, ⟨[a], evs⟩)) ∧
    (∀ a, a.payload = none →
      GetClusterObjs cic (some d) ⟨[a], evs⟩ =
        (.error "inventory object payload is malformed", ⟨[a], evs⟩)) := by
  refine ⟨rfl, ?_, ?_⟩
  · intro a S hp
    simp [GetClusterObjs, getClusterInventoryInfo, Load, hp]
  · intro a hp
    simp [GetClusterObjs, getClusterInventoryInfo, Load, hp]

/-- Witness for C8's amended statement at a concrete input: a single
healthy anchor is read back unchanged. -/
theorem c8_witness :
    aW1.payload = some [oAEx, oBEx] ∧
    GetClusterObjs ⟨false⟩ (some dEx) ⟨[aW1], []⟩ = (.ok [oAEx, oBEx], ⟨[aW1], []⟩) :=
  ⟨rfl, (c8_get_cluster_objs_read_only ⟨false⟩ dEx []).2.1 aW1 [oAEx, oBEx] rfl⟩

/-! ### Dry-run runs compute the same values as live runs on the same state -/

/-- Duplicate-anchor resolution in dry-run mode returns the same value a
live run would return on the same state, and leaves the state untouched. -/
theorem mergeCI_dry (infos : List InvObject) (c : Cluster) :
    mergeClusterInventory ⟨true⟩ infos c =
      ((mergeClusterInventory ⟨false⟩ infos c).1, c) := by
  rcases hs : sortInfos infos with _ | ⟨r, rest⟩
  · rw [mergeCI_nil ⟨true⟩ infos c hs, mergeCI_nil ⟨false⟩ infos c hs]
  · rcases hL : Load r with e | s0
    · rw [mergeCI_retained_err ⟨true⟩ infos c r rest e hs hL,
        mergeCI_retained_err ⟨false⟩ infos c r rest e hs hL]
    · rcases hU : loadAndUnion rest s0 with e | U
      · rw [mergeCI_rest_err ⟨true⟩ infos c r rest s0 e hs hL hU,
          mergeCI_rest_err ⟨false⟩ infos c r rest s0 e hs hL hU]
      · rw [mergeCI_ok_dry infos c r rest s0 U hs hL hU,
          mergeCI_ok_live infos c r rest s0 U hs hL hU]

/-- Anchor lookup in dry-run mode returns the same value a live lookup
would return on the same state, and leaves the state untouched. -/
theorem getCII_dry (l : Option LocalInv) (c : Cluster) :
    getClusterInventoryInfo ⟨true⟩ l c =
      ((getClusterInventoryInfo ⟨false⟩ l c).1, c) := by
  rcases l with _ | d
  · rfl
  · rcases hA : c.anchors with _ | ⟨a, t⟩
    · rw [getCII_zero ⟨true⟩ d c hA, getCII_zero ⟨false⟩ d c hA]
    · rcases t with _ | ⟨b, t2⟩
      · rw [getCII_one ⟨true⟩ d c a hA, getCII_one ⟨false⟩ d c a hA]
      · rw [getCII_many ⟨true⟩ d c a b t2 hA, getCII_many ⟨false⟩ d c a b t2 hA,
          mergeCI_dry]

/-- After a live lookup reports an existing anchor, that anchor is the only
candidate the store still holds (assuming the store invariant that the
candidates of the lookup have pairwise distinct keys). -/
theorem getCII_live_some (d : LocalInv) (c : Cluster) (i : InvObject) (cH : Cluster)
    (hnd : KeysNodup c.anchors)
    (hg : getClusterInventoryInfo ⟨false⟩ (some d) c = (.ok (some i), cH)) :
    cH.anchors = [i] := by
  rcases hA : c.anchors with _ | ⟨a, t⟩
  · rw [getCII_zero ⟨false⟩ d c hA, Prod.mk.injEq] at hg
    exact absurd hg.1 (by simp)
  · rcases t with _ | ⟨b, t2⟩
    · rw [getCII_one ⟨false⟩ d c a hA, Prod.mk.injEq] at hg
      obtain ⟨h1, h2⟩ := hg
      have ha : a = i := by
        injection h1 with h1'
        injection h1'
      rw [← h2, hA, ha]
    · rw [getCII_many ⟨false⟩ d c a b t2 hA] at hg
      rcases hs : sortInfos (a :: b :: t2) with _ | ⟨r, rest⟩
      · exact absurd hs (sortInfos_ne_nil (by simp))
      · rcases hL : Load r with e | s0
        · rw [mergeCI_retained_err ⟨false⟩ _ c r rest e hs hL, Prod.mk.injEq] at hg
          exact absurd hg.1 (by simp)
        · rcases hU : loadAndUnion rest s0 with e | U
          · rw [mergeCI_rest_err ⟨false⟩ _ c r rest s0 e hs hL hU, Prod.mk.injEq] at hg
            exact absurd hg.1 (by simp)
          · rw [mergeCI_ok_live _ c r rest s0 U hs hL hU, Prod.mk.injEq] at hg
            obtain ⟨h1, h2⟩ := hg
            have hi : Store r U = i := by
              injection h1 with h1'
              injection h1'
            rw [← h2, ← hi]
            exact heal_anchors c.anchors r rest U (by rw [hA]; exact hs) hnd

/-- C2: for every starting cluster state (satisfying the store invariant
that lookup candidates have pairwise distinct keys) and every desired set,
`Merge` returns the identical value — the same prune set on success and the
same error on failure — whether dry-run is on or off, and the dry run
leaves the store state completely unchanged. -/
theorem c2_merge_dry_run_equivalence (l : Option LocalInv) (D : List ObjMetadata)
    (c : Cluster) (hnd : KeysNodup c.anchors) :
    (Merge ⟨true⟩ l D c).1 = (Merge ⟨false⟩ l D c).1 ∧
    (Merge ⟨true⟩ l D c).2 = c := by
  rcases l with _ | d
  · exact ⟨rfl, rfl⟩
  · have hgd := getCII_dry (some d) c
    rcases hg : getClusterInventoryInfo ⟨false⟩ (some d) c with ⟨v, cH⟩
    rw [hg] at hgd
    rcases v with e | vo
    · refine ⟨?_, ?_⟩ <;> simp [Merge, hg, hgd]
    · rcases vo with _ | i
      · refine ⟨?_, ?_⟩ <;> simp [Merge, hg, hgd, createInventoryObj]
      · have hanch : cH.anchors = [i] := getCII_live_some d c i cH hnd hg
        rcases hload : Load i with e | S
        · have hGL : GetClusterObjs ⟨false⟩ (some d) cH = (.error e, cH) := by
            simp [GetClusterObjs, getCII_one ⟨false⟩ d cH i hanch, hload]
          have hGD : GetClusterObjs ⟨true⟩ (some d) c = (.error e, c) := by
            simp [GetClusterObjs, hgd, hload]
          refine ⟨?_, ?_⟩ <;> simp [Merge, hg, hgd, hGL, hGD]
        · have hGL : GetClusterObjs ⟨false⟩ (some d) cH = (.ok S, cH) := by
            simp [GetClusterObjs, getCII_one ⟨false⟩ d cH i hanch, hload]
          have hGD : GetClusterObjs ⟨true⟩ (some d) c = (.ok S, c) := by
            simp [GetClusterObjs, hgd, hload]
          rcases hSE : SetEquals D S with _ | _
          · refine ⟨?_, ?_⟩ <;> simp [Merge, hg, hgd, hGL, hGD, hSE, applyInventoryObj]
          · refine ⟨?_, ?_⟩ <;> simp [Merge, hg, hgd, hGL, hGD, hSE]

/-- Witness for C2 at a concrete input: a single stored anchor, desired set
`[oAEx]`; dry-run and live runs return the same prune set and the dry run
does not change the store. -/
theorem c2_witness :
    KeysNodup (⟨[aW1], []⟩ : Cluster).anchors ∧
    (Merge ⟨true⟩ (some dEx) [oAEx] ⟨[aW1], []⟩).1 =
      (Merge ⟨false⟩ (some dEx) [oAEx] ⟨[aW1], []⟩).1 ∧
    (Merge ⟨true⟩ (some dEx) [oAEx] ⟨[aW1], []⟩).2 = ⟨[aW1], []⟩ :=
  ⟨by simp [KeysNodup],
    (c2_merge_dry_run_equivalence (some dEx) [oAEx] ⟨[aW1], []⟩ (by simp [KeysNodup])).1,
    (c2_merge_dry_run_equivalence (some dEx) [oAEx] ⟨[aW1], []⟩ (by simp [KeysNodup])).2⟩

/-- C3: whenever the lookup returns more than one anchor candidate (all
loadable, with pairwise distinct keys, dry-run off), resolution orders the
candidates deterministically, retains the first of the sorted order, stores
into it the union of the stored sets of all candidates, deletes every
non-retained candidate, and returns the retained candidate as the anchor;
once only one candidate remains, re-running the lookup returns the same
anchor and changes nothing. -/
theorem c3_duplicate_resolution (d : LocalInv) (c : Cluster) (i1 i2 : InvObject)
    (irest : List InvObject) (hA : c.anchors = i1 :: i2 :: irest)
    (hload : ∀ i ∈ c.anchors, ∃ s, i.payload = some s)
    (hnd : KeysNodup c.anchors) :
    ∃ retained rest U c',
      sortInfos c.anchors = retained :: rest ∧
      getClusterInventoryInfo ⟨false⟩ (some d) c = (.ok (some (Store retained U)), c') ∧
      c'.anchors = [Store retained U] ∧
      (∀ x, x ∈ U ↔ ∃ i ∈ c.anchors, ∃ s, i.payload = some s ∧ x ∈ s) ∧
      c'.events = c.events ++
        StoreEvent.replace (Store retained U) :: rest.map delEvent ∧
      getClusterInventoryInfo ⟨false⟩ (some d) c' = (.ok (some (Store retained U)), c') := by
  rcases hs : sortInfos c.anchors with _ | ⟨r, rest⟩
  · exact absurd hs (sortInfos_ne_nil (by rw [hA]; simp))
  · have hperm := sortInfos_perm c.anchors
    rw [hs] at hperm
    have hr_mem : r ∈ c.anchors := hperm.subset (List.mem_cons_self r rest)
    obtain ⟨s0, hs0⟩ := hload r hr_mem
    have hL : Load r = .ok s0 := by simp [Load, hs0]
    have hrest_load : ∀ i ∈ rest, ∃ s, i.payload = some s :=
      fun i hi => hload i (hperm.subset (List.mem_cons_of_mem r hi))
    obtain ⟨U, hU, hUmem⟩ := loadAndUnion_ok rest s0 hrest_load
    have hmci := mergeCI_ok_live c.anchors c r rest s0 U hs hL hU
    have hanch := heal_anchors c.anchors r rest U hs hnd
    refine ⟨r, rest, U,
      ⟨(c.anchors.map (replFun (Store r U))).filter (keepFun rest),
        (c.events ++ [StoreEvent.replace (Store r U)]) ++ rest.map delEvent⟩,
      rfl, ?_, hanch, ?_, by simp, ?_⟩
    · rw [getCII_many ⟨false⟩ d c i1 i2 irest hA, ← hA]
      exact hmci
    · intro x
      rw [hUmem x]
      constructor
      · rintro (hx | ⟨j, hj, t, ht, hx⟩)
        · exact ⟨r, hr_mem, s0, hs0, hx⟩
        · exact ⟨j, hperm.subset (List.mem_cons_of_mem r hj), t, ht, hx⟩
      · rintro ⟨j, hj, t, ht, hx⟩
        rcases List.mem_cons.mp (hperm.mem_iff.mpr hj) with hj1 | hj1
        · rw [hj1, hs0] at ht
          cases ht
          exact Or.inl hx
        · exact Or.inr ⟨j, hj1, t, ht, hx⟩
    · exact getCII_one ⟨false⟩ d _ (Store r U) hanch

/-- Every candidate of the concrete duplicate pair has a loadable payload. -/
theorem aDup_payloads : ∀ i ∈ ([aDup1, aDup2] : List InvObject), ∃ s, i.payload = some s := by
  intro i hi
  rcases List.mem_cons.mp hi with rfl | hi2
  · exact ⟨[oAEx], rfl⟩
  · rcases List.mem_cons.mp hi2 with rfl | h3
    · exact ⟨[oBEx], rfl⟩
    · cases h3

/-- Witness for C3 at a concrete input: two duplicate anchors storing
`[oAEx]` and `[oBEx]`; resolution retains one anchor storing their union
and deletes the other, and a repeated lookup is a no-op. -/
theorem c3_witness :
    ((⟨[aDup1, aDup2], []⟩ : Cluster).anchors = aDup1 :: aDup2 :: [] ∧
      (∀ i ∈ (⟨[aDup1, aDup2], []⟩ : Cluster).anchors, ∃ s, i.payload = some s) ∧
      KeysNodup (⟨[aDup1, aDup2], []⟩ : Cluster).anchors) ∧
    ∃ retained rest U c',
      sortInfos (⟨[aDup1, aDup2], []⟩ : Cluster).anchors = retained :: rest ∧
      getClusterInventoryInfo ⟨false⟩ (some dEx) ⟨[aDup1, aDup2], []⟩ =
        (.ok (some (Store retained U)), c') ∧
      c'.anchors = [Store retained U] ∧
      (∀ x, x ∈ U ↔ ∃ i ∈ (⟨[aDup1, aDup2], []⟩ : Cluster).anchors,
        ∃ s, i.payload = some s ∧ x ∈ s) ∧
      c'.events = (⟨[aDup1, aDup2], []⟩ : Cluster).events ++
        StoreEvent.replace (Store retained U) :: rest.map delEvent ∧
      getClusterInventoryInfo ⟨false⟩ (some dEx) c' =
        (.ok (some (Store retained U)), c') :=
  ⟨⟨rfl, aDup_payloads, by simp only [KeysNodup]; decide⟩,
    c3_duplicate_resolution dEx ⟨[aDup1, aDup2], []⟩ aDup1 aDup2 [] rfl
      aDup_payloads (by simp only [KeysNodup]; decide)⟩

end CliUtils
